import Mathlib

/-!
Verification of the Picard "Persistent Variables" plugin (`src/__init__.py`).

The plugin's state is two Python dictionaries held as class attributes of
`PersistentVariables`: `album_variables` (album identifier → {name → value})
and `session_variables` ({name → value}).  A Python `dict` is modelled as an
association list over `String` keys; `Dict.insert` replaces the value at the
first occurrence of the key in place (preserving position, as CPython does) and
appends at the end when the key is absent, `Dict.pop` removes the key
(`d.pop(k, None)`), and `Dict.get?` / `Dict.member` model subscripting and the
`in` operator.  On lists without duplicate keys — the only states a Python dict
can be in — these agree with CPython dict semantics exactly.
-/

namespace PersistentVariablesPlugin

namespace Dict

variable {β : Type}

/-- `d[k]` as an `Option`: value at the first occurrence of key `k`. -/
def get? : List (String × β) → String → Option β
  | [], _ => none
  | q :: rest, k => if q.1 = k then some q.2 else get? rest k

/-- `k in d`. -/
def member (d : List (String × β)) (k : String) : Bool :=
  (get? d k).isSome

/-- `d[k] = v`: replace in place at the first occurrence, else append. -/
def insert : List (String × β) → String → β → List (String × β)
  | [], k, v => [(k, v)]
  | q :: rest, k, v => if q.1 = k then (k, v) :: rest else q :: insert rest k v

/-- `d.pop(k, None)`: remove the key if present. -/
def pop : List (String × β) → String → List (String × β)
  | [], _ => []
  | q :: rest, k => if q.1 = k then pop rest k else q :: pop rest k

/-- `d.keys()` in iteration order. -/
def keys (d : List (String × β)) : List String :=
  d.map Prod.fst

end Dict

/-- The plugin's process-wide store (`PersistentVariables` class attributes). -/
structure PersistentVariables where
  album_variables : List (String × List (String × String))
  session_variables : List (String × String)
deriving DecidableEq

/-- The initial state: both class attributes start as empty dicts. -/
def emptyPV : PersistentVariables := ⟨[], []⟩

/-- `clear_album_vars(album)`: `if album: album_variables[album] = {}`. -/
def clear_album_vars (s : PersistentVariables) (album : String) : PersistentVariables :=
  if album ≠ "" then
    { s with album_variables := Dict.insert s.album_variables album [] }
  else s

/-- `set_album_var(album, key, value)`: if the album id is non-empty, ensure the
per-album dict exists (via `clear_album_vars`), then if the key is non-empty
store `key → value` in it (even when `value` is empty). -/
def set_album_var (s : PersistentVariables) (album key value : String) : PersistentVariables :=
  if album ≠ "" then
    let s1 := if Dict.member s.album_variables album then s else clear_album_vars s album
    if key ≠ "" then
      let inner := Dict.insert ((Dict.get? s1.album_variables album).getD []) key value
      { s1 with album_variables := Dict.insert s1.album_variables album inner }
    else s1
  else s

/-- `unset_album_var(album, key)`: `if album and album in album_variables:
album_variables[album].pop(key, None)`. -/
def unset_album_var (s : PersistentVariables) (album key : String) : PersistentVariables :=
  if album ≠ "" ∧ Dict.member s.album_variables album then
    let inner := Dict.pop ((Dict.get? s.album_variables album).getD []) key
    { s with album_variables := Dict.insert s.album_variables album inner }
  else s

/-- `unset_album_dict(album)`: `if album: album_variables.pop(album, None)`. -/
def unset_album_dict (s : PersistentVariables) (album : String) : PersistentVariables :=
  if album ≠ "" then
    { s with album_variables := Dict.pop s.album_variables album }
  else s

/-- `get_album_var(album, key)`: the stored value when both the album and the
key are present, the empty string otherwise. -/
def get_album_var (s : PersistentVariables) (album key : String) : String :=
  match Dict.get? s.album_variables album with
  | some inner => (Dict.get? inner key).getD ""
  | none => ""

/-- `clear_session_vars()`: `session_variables = {}`. -/
def clear_session_vars (s : PersistentVariables) : PersistentVariables :=
  { s with session_variables := [] }

/-- `set_session_var(key, value)`: `if key: session_variables[key] = value`. -/
def set_session_var (s : PersistentVariables) (key value : String) : PersistentVariables :=
  if key ≠ "" then
    { s with session_variables := Dict.insert s.session_variables key value }
  else s

/-- `unset_session_var(key)`: `session_variables.pop(key, None)`. -/
def unset_session_var (s : PersistentVariables) (key : String) : PersistentVariables :=
  { s with session_variables := Dict.pop s.session_variables key }

/-- `get_session_var(key)`: stored value, or the empty string when absent. -/
def get_session_var (s : PersistentVariables) (key : String) : String :=
  (Dict.get? s.session_variables key).getD ""

/-- `get_album_dict(album)`: the per-album dict when the id is non-empty and
present, else an empty dict. -/
def get_album_dict (s : PersistentVariables) (album : String) : List (String × String) :=
  if album ≠ "" ∧ Dict.member s.album_variables album then
    (Dict.get? s.album_variables album).getD []
  else []

/-- `get_session_dict()`: the session dict itself. -/
def get_session_dict (s : PersistentVariables) : List (String × String) :=
  s.session_variables

/-! ## Host objects and the evaluation context

`parser` is the host interpreter's evaluation context.  `parser.file` is the
file the script runs against (absent for album-level runs); `file.parent` may
carry an `album` attribute referencing the loaded album (`hasattr` failing or
the attribute being `None` are both modelled as `none`); `parser.context` is
the host's `Metadata` variable bag, whose subscript operator yields the empty
string for a missing key. -/

structure AlbumObj where
  id : String
deriving DecidableEq

structure FileParent where
  album : Option AlbumObj
deriving DecidableEq

structure FileObj where
  parent : Option FileParent
deriving DecidableEq

structure TrackObj where
  album : Option AlbumObj
deriving DecidableEq

structure Parser where
  file : Option FileObj
  context : List (String × String)
deriving DecidableEq

/-- `_get_album_id(parser)`: when the context has a file, return its loaded
album's id (empty string when the file has no loaded album); only when there is
no file fall back to `parser.context['musicbrainz_albumid']`. -/
def _get_album_id (p : Parser) : String :=
  match p.file with
  | some file =>
    match file.parent with
    | some par =>
      match par.album with
      | some a => a.id
      | none => ""
    | none => ""
  | none => (Dict.get? p.context "musicbrainz_albumid").getD ""

/-- Modelled from the spec: the host's tag-name normalization
(`picard.script.parser.normalize_tagname`), host code that is not part of this
repository.  The spec describes it only as an idempotent case/format folding of
variable names applied before the name is used as a store key; it is modelled
here as case folding (lower-casing each character). -/
def normalize_tagname (name : String) : String :=
  ⟨name.data.map Char.toLower⟩

/-! ## Script-function bridge

Each bridge function is modelled as a function of the store and its arguments,
returning the new store paired with the string handed back to the script
engine (the `$get_*` functions mutate nothing and return only a string).  The
debug-logging calls in the source have no effect on the store or the returned
string and are omitted. -/

/-- `func_unset_s(parser, name)`. -/
def func_unset_s (s : PersistentVariables) (name : String) : PersistentVariables × String :=
  (unset_session_var s (normalize_tagname name), "")

/-- `func_set_s(parser, name, value)`: a non-empty value is stored; an empty
value delegates to `func_unset_s`. -/
def func_set_s (s : PersistentVariables) (name value : String) : PersistentVariables × String :=
  if value ≠ "" then (set_session_var s (normalize_tagname name) value, "")
  else ((func_unset_s s name).1, "")

/-- `func_get_s(parser, name)`. -/
def func_get_s (s : PersistentVariables) (name : String) : String :=
  get_session_var s (normalize_tagname name)

/-- `func_clear_s(parser)`. -/
def func_clear_s (s : PersistentVariables) : PersistentVariables × String :=
  (clear_session_vars s, "")

/-- `func_unset_a(parser, name)`. -/
def func_unset_a (s : PersistentVariables) (p : Parser) (name : String) :
    PersistentVariables × String :=
  let album_id := _get_album_id p
  if album_id ≠ "" then (unset_album_var s album_id (normalize_tagname name), "")
  else (s, "")

/-- `func_set_a(parser, name, value)`. -/
def func_set_a (s : PersistentVariables) (p : Parser) (name value : String) :
    PersistentVariables × String :=
  let album_id := _get_album_id p
  if album_id ≠ "" then (set_album_var s album_id (normalize_tagname name) value, "")
  else (s, "")

/-- `func_get_a(parser, name)`. -/
def func_get_a (s : PersistentVariables) (p : Parser) (name : String) : String :=
  let album_id := _get_album_id p
  if album_id ≠ "" then get_album_var s album_id (normalize_tagname name)
  else ""

/-- `func_clear_a(parser)`. -/
def func_clear_a (s : PersistentVariables) (p : Parser) : PersistentVariables × String :=
  let album_id := _get_album_id p
  if album_id ≠ "" then (clear_album_vars s album_id, "")
  else (s, "")

/-! ## Lifecycle hooks -/

/-- `initialize_album_dict(api, album, ...)`: clear the album's dict on
album-processing start. -/
def initialize_album_dict (s : PersistentVariables) (album : AlbumObj) : PersistentVariables :=
  clear_album_vars s album.id

/-- `destroy_album_dict(api, album)`: drop the album's dict on album removal. -/
def destroy_album_dict (s : PersistentVariables) (album : AlbumObj) : PersistentVariables :=
  unset_album_dict s album.id

/-! ## Inspection dialog

`ViewPersistentVariablesDialog.__init__` derives an album id from the object it
was opened on, snapshots both dicts, and fills a table: a bold header row for
the album section carrying its item count, the album entries with keys in
`sorted` order, then the same for the session section.  A table row is
modelled as a `Row`; widget flags, fonts and the localized pluralization of the
count text are presentation details outside the model.  The construction is a
pure function of the store — it performs no write-back. -/

/-- The object the dialog is opened on (`Album`, `File` or `Track`). -/
inductive MusicObject where
  | album (a : AlbumObj)
  | file (f : FileObj)
  | track (t : TrackObj)
deriving DecidableEq

/-- One table row: a section header with its item count, or a key/value entry. -/
inductive Row where
  | header (title : String) (count : Nat)
  | entry (key value : String)
deriving DecidableEq

/-- The dialog's album-id derivation from the object it was opened on (no
evaluation-context fallback exists here). -/
def dialog_album_id : MusicObject → String
  | .album a => a.id
  | .file f =>
    match f.parent with
    | some par =>
      match par.album with
      | some a => a.id
      | none => ""
    | none => ""
  | .track t =>
    match t.album with
    | some a => a.id
    | none => ""

/-- Lexicographic comparison of character lists by code point — the order
Python's `sorted` uses on `str`. -/
def charListLe : List Char → List Char → Bool
  | [], _ => true
  | _ :: _, [] => false
  | a :: as, b :: bs =>
    if a.toNat < b.toNat then true
    else if b.toNat < a.toNat then false
    else charListLe as bs

/-- String comparison by code-point lexicographic order. -/
def strLe (a b : String) : Bool :=
  charListLe a.data b.data

/-- Insert a key into an already sorted list, keeping it sorted. -/
def insertSorted (x : String) : List String → List String
  | [] => [x]
  | y :: ys => if strLe x y then x :: y :: ys else y :: insertSorted x ys

/-- Python's `sorted` on the keys of a dict (insertion sort; on duplicate-free
key lists every sorting algorithm produces this same list). -/
def sortKeys : List String → List String
  | [] => []
  | x :: xs => insertSorted x (sortKeys xs)

/-- The rows of `ViewPersistentVariablesDialog` in table order: album header
with `len(album_dict)`, album entries by sorted key, session header with
`len(session_dict)`, session entries by sorted key. -/
def dialog_rows (s : PersistentVariables) (obj : MusicObject) : List Row :=
  let album_dict := get_album_dict s (dialog_album_id obj)
  let session_dict := get_session_dict s
  [Row.header "Album Variables" album_dict.length]
    ++ (sortKeys (Dict.keys album_dict)).map
        (fun k => Row.entry k ((Dict.get? album_dict k).getD ""))
    ++ [Row.header "Session Variables" session_dict.length]
    ++ (sortKeys (Dict.keys session_dict)).map
        (fun k => Row.entry k ((Dict.get? session_dict k).getD ""))

/-! ## Dictionary lemmas -/

namespace Dict

variable {β : Type}

theorem get?_insert_self (d : List (String × β)) (k : String) (v : β) :
    get? (insert d k v) k = some v := by
  induction d with
  | nil => simp [insert, get?]
  | cons q rest ih =>
    by_cases h : q.1 = k
    · simp [insert, h, get?]
    · simp [insert, h, get?, ih]

theorem get?_insert_ne (d : List (String × β)) {k k' : String} (v : β) (h : k' ≠ k) :
    get? (insert d k v) k' = get? d k' := by
  have hk : ¬(k = k') := fun hh => h hh.symm
  induction d with
  | nil => simp [insert, get?, hk]
  | cons q rest ih =>
    by_cases hq : q.1 = k
    · simp [insert, get?, hq, hk]
    · simp [insert, get?, hq, ih]

theorem get?_pop_self (d : List (String × β)) (k : String) :
    get? (pop d k) k = none := by
  induction d with
  | nil => simp [pop, get?]
  | cons q rest ih =>
    by_cases h : q.1 = k
    · simp [pop, h, ih]
    · simp [pop, h, get?, ih]

theorem pop_pop_self (d : List (String × β)) (k : String) :
    pop (pop d k) k = pop d k := by
  induction d with
  | nil => simp [pop]
  | cons q rest ih =>
    by_cases h : q.1 = k
    · simp [pop, h, ih]
    · simp [pop, h, ih]

theorem insert_insert_self (d : List (String × β)) (k : String) (v w : β) :
    insert (insert d k v) k w = insert d k w := by
  induction d with
  | nil => simp [insert]
  | cons q rest ih =>
    by_cases h : q.1 = k
    · simp [insert, h]
    · simp [insert, h, ih]

theorem member_insert_self (d : List (String × β)) (k : String) (v : β) :
    member (insert d k v) k = true := by
  simp [member, get?_insert_self]

theorem mem_insert {d : List (String × β)} {k : String} {v : β} {q : String × β}
    (h : q ∈ insert d k v) : q = (k, v) ∨ q ∈ d := by
  induction d with
  | nil => simpa [insert] using h
  | cons r rest ih =>
    by_cases hr : r.1 = k
    · simp only [insert, hr, if_pos rfl] at h
      rcases List.mem_cons.mp h with h1 | h1
      · exact Or.inl h1
      · exact Or.inr (List.mem_cons_of_mem r h1)
    · simp only [insert, hr, if_neg hr] at h
      rcases List.mem_cons.mp h with h1 | h1
      · exact Or.inr (h1 ▸ List.mem_cons_self r rest)
      · rcases ih h1 with h2 | h2
        · exact Or.inl h2
        · exact Or.inr (List.mem_cons_of_mem r h2)

theorem mem_pop {d : List (String × β)} {k : String} {q : String × β}
    (h : q ∈ pop d k) : q ∈ d := by
  induction d with
  | nil => simp [pop] at h
  | cons r rest ih =>
    by_cases hr : r.1 = k
    · simp only [pop, hr, if_pos rfl] at h
      exact List.mem_cons_of_mem r (ih h)
    · simp only [pop, hr, if_neg hr] at h
      rcases List.mem_cons.mp h with h1 | h1
      · exact h1 ▸ List.mem_cons_self r rest
      · exact List.mem_cons_of_mem r (ih h1)

theorem get?_eq_none_of_keys {d : List (String × β)} {k : String}
    (h : ∀ q ∈ d, q.1 ≠ k) : get? d k = none := by
  induction d with
  | nil => simp [get?]
  | cons q rest ih =>
    have hq : q.1 ≠ k := h q (List.mem_cons_self q rest)
    simp only [get?, if_neg hq]
    exact ih fun r hr => h r (List.mem_cons_of_mem q hr)

end Dict

/-! ## Sorting lemmas -/

theorem charListLe_total (as bs : List Char) :
    charListLe as bs = true ∨ charListLe bs as = true := by
  induction as generalizing bs with
  | nil => left; simp [charListLe]
  | cons a as ih =>
    cases bs with
    | nil => right; simp [charListLe]
    | cons b bs =>
      by_cases h1 : a.toNat < b.toNat
      · left; simp [charListLe, h1]
      · by_cases h2 : b.toNat < a.toNat
        · right; simp [charListLe, h2]
        · rcases ih bs with h | h
          · left; simp [charListLe, h1, h2, h]
          · right; simp [charListLe, h1, h2, h]

theorem strLe_total (a b : String) : strLe a b = true ∨ strLe b a = true :=
  charListLe_total a.data b.data

theorem charListLe_trans {as bs cs : List Char} (h1 : charListLe as bs = true)
    (h2 : charListLe bs cs = true) : charListLe as cs = true := by
  induction as generalizing bs cs with
  | nil => simp [charListLe]
  | cons a as ih =>
    cases bs with
    | nil => simp [charListLe] at h1
    | cons b bs =>
      cases cs with
      | nil => simp [charListLe] at h2
      | cons c cs =>
        simp only [charListLe] at h1 h2 ⊢
        by_cases hab : a.toNat < b.toNat
        · by_cases hbc : b.toNat < c.toNat
          · have hac : a.toNat < c.toNat := Nat.lt_trans hab hbc
            simp [hac]
          · by_cases hcb : c.toNat < b.toNat
            · simp [hbc, hcb] at h2
            · have hac : a.toNat < c.toNat := by omega
              simp [hac]
        · by_cases hba : b.toNat < a.toNat
          · simp [hab, hba] at h1
          · simp only [hab, hba, if_false, ite_false, if_neg, not_false_iff] at h1
            by_cases hbc : b.toNat < c.toNat
            · have hac : a.toNat < c.toNat := by omega
              simp [hac]
            · by_cases hcb : c.toNat < b.toNat
              · simp [hbc, hcb] at h2
              · simp only [hbc, hcb, if_false, ite_false, if_neg, not_false_iff] at h2
                have hac1 : ¬a.toNat < c.toNat := by omega
                have hac2 : ¬c.toNat < a.toNat := by omega
                simp [hac1, hac2, ih h1 h2]

theorem strLe_trans {a b c : String} (h1 : strLe a b = true) (h2 : strLe b c = true) :
    strLe a c = true :=
  charListLe_trans h1 h2

theorem insertSorted_perm (x : String) (l : List String) :
    List.Perm (insertSorted x l) (x :: l) := by
  induction l with
  | nil => simp [insertSorted]
  | cons y ys ih =>
    by_cases h : strLe x y = true
    · simp [insertSorted, h]
    · simp only [insertSorted, h, if_false, Bool.not_eq_true, ite_false,
        Bool.false_eq_true]
      exact (ih.cons y).trans (List.Perm.swap x y ys)

theorem sortKeys_perm (l : List String) : List.Perm (sortKeys l) l := by
  induction l with
  | nil => simp [sortKeys]
  | cons x xs ih => exact (insertSorted_perm x (sortKeys xs)).trans (ih.cons x)

theorem sorted_insertSorted (x : String) {l : List String}
    (h : List.Sorted (fun a b => strLe a b = true) l) :
    List.Sorted (fun a b => strLe a b = true) (insertSorted x l) := by
  induction l with
  | nil => simp [insertSorted]
  | cons y ys ih =>
    rcases List.sorted_cons.mp h with ⟨hy, hys⟩
    by_cases hxy : strLe x y = true
    · simp only [insertSorted, hxy, if_true, ite_true]
      refine List.sorted_cons.mpr ⟨?_, h⟩
      intro b hb
      rcases List.mem_cons.mp hb with hb | hb
      · exact hb ▸ hxy
      · exact strLe_trans hxy (hy b hb)
    · have hyx : strLe y x = true := (strLe_total x y).resolve_left hxy
      simp only [insertSorted, hxy, if_false, Bool.not_eq_true, ite_false,
        Bool.false_eq_true]
      refine List.sorted_cons.mpr ⟨?_, ih hys⟩
      intro b hb
      rcases List.mem_cons.mp ((insertSorted_perm x ys).mem_iff.mp hb) with hb' | hb'
      · exact hb' ▸ hyx
      · exact hy b hb'

theorem sortKeys_sorted (l : List String) :
    List.Sorted (fun a b => strLe a b = true) (sortKeys l) := by
  induction l with
  | nil => simp [sortKeys]
  | cons x xs ih => exact sorted_insertSorted x ih

/-! ## Reachable states and the no-empty-album-key invariant -/

/-- The empty string is not a key of the album mapping. -/
def NoEmptyAlbumKey (s : PersistentVariables) : Prop :=
  ∀ q ∈ s.album_variables, q.1 ≠ ""

/-- Store states reachable from the initial empty state by any sequence of
`VariableStore` operations, script-bridge calls and lifecycle hooks (the
read-only accessors do not change the state and need no constructor). -/
inductive Reachable : PersistentVariables → Prop where
  | init : Reachable emptyPV
  | clear_album (s : PersistentVariables) (a : String) :
      Reachable s → Reachable (clear_album_vars s a)
  | set_album (s : PersistentVariables) (a k v : String) :
      Reachable s → Reachable (set_album_var s a k v)
  | unset_album (s : PersistentVariables) (a k : String) :
      Reachable s → Reachable (unset_album_var s a k)
  | destroy_album (s : PersistentVariables) (a : String) :
      Reachable s → Reachable (unset_album_dict s a)
  | clear_session (s : PersistentVariables) :
      Reachable s → Reachable (clear_session_vars s)
  | set_session (s : PersistentVariables) (k v : String) :
      Reachable s → Reachable (set_session_var s k v)
  | unset_session (s : PersistentVariables) (k : String) :
      Reachable s → Reachable (unset_session_var s k)
  | bridge_set_s (s : PersistentVariables) (name value : String) :
      Reachable s → Reachable (func_set_s s name value).1
  | bridge_unset_s (s : PersistentVariables) (name : String) :
      Reachable s → Reachable (func_unset_s s name).1
  | bridge_clear_s (s : PersistentVariables) :
      Reachable s → Reachable (func_clear_s s).1
  | bridge_set_a (s : PersistentVariables) (p : Parser) (name value : String) :
      Reachable s → Reachable (func_set_a s p name value).1
  | bridge_unset_a (s : PersistentVariables) (p : Parser) (name : String) :
      Reachable s → Reachable (func_unset_a s p name).1
  | bridge_clear_a (s : PersistentVariables) (p : Parser) :
      Reachable s → Reachable (func_clear_a s p).1
  | hook_init (s : PersistentVariables) (album : AlbumObj) :
      Reachable s → Reachable (initialize_album_dict s album)
  | hook_destroy (s : PersistentVariables) (album : AlbumObj) :
      Reachable s → Reachable (destroy_album_dict s album)

theorem noEmpty_clear_album (s : PersistentVariables) (a : String)
    (h : NoEmptyAlbumKey s) : NoEmptyAlbumKey (clear_album_vars s a) := by
  unfold clear_album_vars
  split
  · intro q hq
    rcases Dict.mem_insert hq with h1 | h1
    · subst h1; assumption
    · exact h q h1
  · exact h

theorem noEmpty_set_album (s : PersistentVariables) (a k v : String)
    (h : NoEmptyAlbumKey s) : NoEmptyAlbumKey (set_album_var s a k v) := by
  unfold set_album_var
  split_ifs with ha hm hk hk
  · intro q hq
    rcases Dict.mem_insert hq with h1 | h1
    · subst h1; exact ha
    · exact h q h1
  · exact h
  · intro q hq
    rcases Dict.mem_insert hq with h1 | h1
    · subst h1; exact ha
    · exact noEmpty_clear_album s a h q h1
  · exact noEmpty_clear_album s a h
  · exact h

theorem noEmpty_unset_album (s : PersistentVariables) (a k : String)
    (h : NoEmptyAlbumKey s) : NoEmptyAlbumKey (unset_album_var s a k) := by
  unfold unset_album_var
  split_ifs with hc
  · intro q hq
    rcases Dict.mem_insert hq with h1 | h1
    · subst h1; exact hc.1
    · exact h q h1
  · exact h

theorem noEmpty_destroy_album (s : PersistentVariables) (a : String)
    (h : NoEmptyAlbumKey s) : NoEmptyAlbumKey (unset_album_dict s a) := by
  unfold unset_album_dict
  split
  · intro q hq
    exact h q (Dict.mem_pop hq)
  · exact h

theorem album_variables_clear_session (s : PersistentVariables) :
    (clear_session_vars s).album_variables = s.album_variables := rfl

theorem album_variables_set_session (s : PersistentVariables) (k v : String) :
    (set_session_var s k v).album_variables = s.album_variables := by
  unfold set_session_var
  split <;> rfl

theorem album_variables_unset_session (s : PersistentVariables) (k : String) :
    (unset_session_var s k).album_variables = s.album_variables := rfl

/-- Every reachable state satisfies the invariant: the empty string is never a
key of the album mapping. -/
theorem reachable_noEmpty {s : PersistentVariables} (h : Reachable s) :
    NoEmptyAlbumKey s := by
  induction h with
  | init => intro q hq; simp [emptyPV] at hq
  | clear_album s a _ ih => exact noEmpty_clear_album s a ih
  | set_album s a k v _ ih => exact noEmpty_set_album s a k v ih
  | unset_album s a k _ ih => exact noEmpty_unset_album s a k ih
  | destroy_album s a _ ih => exact noEmpty_destroy_album s a ih
  | clear_session s _ ih =>
    intro q hq
    rw [album_variables_clear_session] at hq
    exact ih q hq
  | set_session s k v _ ih =>
    intro q hq
    rw [album_variables_set_session] at hq
    exact ih q hq
  | unset_session s k _ ih =>
    intro q hq
    rw [album_variables_unset_session] at hq
    exact ih q hq
  | bridge_set_s s name value _ ih =>
    intro q hq
    unfold func_set_s func_unset_s at hq
    split at hq
    · rw [album_variables_set_session] at hq
      exact ih q hq
    · rw [album_variables_unset_session] at hq
      exact ih q hq
  | bridge_unset_s s name _ ih =>
    intro q hq
    unfold func_unset_s at hq
    rw [album_variables_unset_session] at hq
    exact ih q hq
  | bridge_clear_s s _ ih =>
    intro q hq
    unfold func_clear_s at hq
    rw [album_variables_clear_session] at hq
    exact ih q hq
  | bridge_set_a s p name value _ ih =>
    by_cases hid : _get_album_id p = ""
    · simpa [func_set_a, hid] using ih
    · simpa [func_set_a, hid] using noEmpty_set_album s _ (normalize_tagname name) value ih
  | bridge_unset_a s p name _ ih =>
    by_cases hid : _get_album_id p = ""
    · simpa [func_unset_a, hid] using ih
    · simpa [func_unset_a, hid] using noEmpty_unset_album s _ (normalize_tagname name) ih
  | bridge_clear_a s p _ ih =>
    by_cases hid : _get_album_id p = ""
    · simpa [func_clear_a, hid] using ih
    · simpa [func_clear_a, hid] using noEmpty_clear_album s _ ih
  | hook_init s album _ ih => exact noEmpty_clear_album s album.id ih
  | hook_destroy s album _ ih => exact noEmpty_destroy_album s album.id ih

/-! ## Concrete evaluation contexts used by witnesses and counterexamples -/

/-- A context whose file exists but has no loaded album, while the variable bag
carries an album identifier. -/
def parserFileNoAlbum : Parser :=
  ⟨some ⟨some ⟨none⟩⟩, [("musicbrainz_albumid", "X")]⟩

/-- A context with no file whose variable bag carries an album identifier. -/
def parserNoFile : Parser :=
  ⟨none, [("musicbrainz_albumid", "mbid-1")]⟩

/-- A context with no file and an empty variable bag: no identifier resolves. -/
def parserEmpty : Parser := ⟨none, []⟩

/-- A context whose file belongs to the loaded album "album-1". -/
def parserWithAlbum : Parser :=
  ⟨some ⟨some ⟨some ⟨"album-1"⟩⟩⟩, []⟩

/-! ## Claims -/

/-- C1 counterexample: a context whose file exists but has no loaded album,
while the variable bag holds the identifier "X".  The claim says resolution
still falls back to the bag and yields "X"; `_get_album_id` returns the empty
string instead — the bag is consulted only when the context has no file. -/
theorem c1_counterexample :
    parserFileNoAlbum.file.isSome = true ∧
    Dict.get? parserFileNoAlbum.context "musicbrainz_albumid" = some "X" ∧
    _get_album_id parserFileNoAlbum = "" ∧
    _get_album_id parserFileNoAlbum ≠ "X" := by
  refine ⟨rfl, rfl, rfl, ?_⟩
  decide

/-- C1 (amended): if the context has a file, resolution returns the file's
loaded album identifier when one exists and the empty string otherwise (the
variable bag is not consulted); only when the context has no file does it fall
back to the bag's 'musicbrainz_albumid' entry. -/
theorem c1_album_id_resolution (p : Parser) :
    (∀ f par a, p.file = some f → f.parent = some par → par.album = some a →
      _get_album_id p = a.id) ∧
    (∀ f, p.file = some f → f.parent = none → _get_album_id p = "") ∧
    (∀ f par, p.file = some f → f.parent = some par → par.album = none →
      _get_album_id p = "") ∧
    (p.file = none →
      _get_album_id p = (Dict.get? p.context "musicbrainz_albumid").getD "") := by
  refine ⟨?_, ?_, ?_, ?_⟩ <;> intros <;> simp_all [_get_album_id]

/-- C1 witness: a file belonging to "album-1" resolves to "album-1"; a context
with no file resolves to the bag's "mbid-1". -/
theorem c1_witness :
    _get_album_id parserWithAlbum = "album-1" ∧
    _get_album_id parserNoFile = "mbid-1" := by
  constructor
  · exact (c1_album_id_resolution parserWithAlbum).1 _ _ _ rfl rfl rfl
  · rw [(c1_album_id_resolution parserNoFile).2.2.2 rfl]
    rfl

/-- C2 counterexample: for the name "" (whose normalized form is empty) and the
non-empty value "x", the session set stores nothing, so the subsequent get
returns "" rather than "x" — the claim's "for every key" fails at the empty
key. -/
theorem c2_counterexample :
    func_get_s (func_set_s emptyPV "" "x").1 "" = "" ∧
    func_get_s (func_set_s emptyPV "" "x").1 "" ≠ "x" := by
  refine ⟨rfl, ?_⟩
  decide

/-- C2 (amended): for every name whose normalized form is non-empty, setting a
session variable to a non-empty value and reading it back returns that value;
setting an empty value is, for every name, literally the unset call (the key is
removed, not stored as an empty string), and the subsequent get returns "". -/
theorem c2_session_roundtrip (s : PersistentVariables) (name value : String) :
    (normalize_tagname name ≠ "" → value ≠ "" →
      func_get_s (func_set_s s name value).1 name = value) ∧
    func_set_s s name "" = func_unset_s s name ∧
    Dict.get? (func_set_s s name "").1.session_variables (normalize_tagname name) = none ∧
    func_get_s (func_set_s s name "").1 name = "" := by
  refine ⟨?_, ?_, ?_, ?_⟩
  · intro hn hv
    simp [func_set_s, hv, func_get_s, get_session_var, set_session_var, hn,
      Dict.get?_insert_self]
  · simp [func_set_s, func_unset_s]
  · simp [func_set_s, func_unset_s, unset_session_var, Dict.get?_pop_self]
  · simp [func_set_s, func_unset_s, func_get_s, get_session_var, unset_session_var,
      Dict.get?_pop_self]

/-- C2 witness: set "k" to "v" then get "k" returns "v"; set "k" to "" then get
"k" returns "". -/
theorem c2_witness :
    func_get_s (func_set_s emptyPV "k" "v").1 "k" = "v" ∧
    func_get_s (func_set_s emptyPV "k" "").1 "k" = "" := by
  have h := c2_session_roundtrip emptyPV "k" "v"
  exact ⟨h.1 (by decide) (by decide), h.2.2.2⟩

/-- C3: for a non-empty album identifier and key, the album-scoped set with an
empty value keeps the key present, mapped to the empty string, while the
session-scoped set with an empty value removes the key — the asymmetry the
spec flags. -/
theorem c3_album_set_empty_value (s : PersistentVariables) (A k : String)
    (hA : A ≠ "") (hk : k ≠ "") :
    Dict.get? ((Dict.get? (set_album_var s A k "").album_variables A).getD []) k
      = some "" ∧
    (∀ name, Dict.get? (func_set_s s name "").1.session_variables
      (normalize_tagname name) = none) := by
  constructor
  · simp [set_album_var, hA, hk, Dict.get?_insert_self]
  · intro name
    simp [func_set_s, func_unset_s, unset_session_var, Dict.get?_pop_self]

/-- C3 witness: the concrete asymmetry on album "album-1", key "k". -/
theorem c3_witness :
    Dict.get? ((Dict.get? (set_album_var emptyPV "album-1" "k" "").album_variables
      "album-1").getD []) "k" = some "" ∧
    Dict.get? (func_set_s emptyPV "n" "").1.session_variables
      (normalize_tagname "n") = none := by
  have h := c3_album_set_empty_value emptyPV "album-1" "k" (by decide) (by decide)
  exact ⟨h.1, h.2 "n"⟩

/-- C4: every bridge function is a total function into strings (no exception
path exists in the model); the set/unset/clear variants return the empty
string on all inputs, and when album-identifier resolution yields no
identifier every album-scoped function leaves the store unchanged and returns
the empty string. -/
theorem c4_bridge_functions_total (s : PersistentVariables) (p : Parser)
    (name value : String) :
    (func_set_s s name value).2 = "" ∧
    (func_unset_s s name).2 = "" ∧
    (func_clear_s s).2 = "" ∧
    (func_set_a s p name value).2 = "" ∧
    (func_unset_a s p name).2 = "" ∧
    (func_clear_a s p).2 = "" ∧
    (_get_album_id p = "" →
      (func_set_a s p name value).1 = s ∧
      (func_unset_a s p name).1 = s ∧
      (func_clear_a s p).1 = s ∧
      func_get_a s p name = "") := by
  refine ⟨?_, rfl, rfl, ?_, ?_, ?_, ?_⟩
  · by_cases hv : value = "" <;> simp [func_set_s, hv]
  · by_cases hid : _get_album_id p = "" <;> simp [func_set_a, hid]
  · by_cases hid : _get_album_id p = "" <;> simp [func_unset_a, hid]
  · by_cases hid : _get_album_id p = "" <;> simp [func_clear_a, hid]
  · intro hid
    simp [func_set_a, func_unset_a, func_clear_a, func_get_a, hid]

/-- C4 witness: on a context resolving no album identifier, the album-scoped
set is a no-op and the album-scoped get returns the empty string. -/
theorem c4_witness :
    _get_album_id parserEmpty = "" ∧
    (func_set_a emptyPV parserEmpty "n" "v").1 = emptyPV ∧
    func_get_a emptyPV parserEmpty "n" = "" := by
  refine ⟨rfl, ?_, ?_⟩
  · exact ((c4_bridge_functions_total emptyPV parserEmpty "n" "v").2.2.2.2.2.2 rfl).1
  · exact ((c4_bridge_functions_total emptyPV parserEmpty "n" "v").2.2.2.2.2.2 rfl).2.2.2

/-! ## Idempotence of the store mutators (the read accessors are pure
functions of the state and leave it untouched by construction) -/

theorem clear_album_vars_idem (s : PersistentVariables) (a : String) :
    clear_album_vars (clear_album_vars s a) a = clear_album_vars s a := by
  by_cases ha : a = ""
  · simp [clear_album_vars, ha]
  · simp [clear_album_vars, ha, Dict.insert_insert_self]

theorem set_album_var_idem (s : PersistentVariables) (a k v : String) :
    set_album_var (set_album_var s a k v) a k v = set_album_var s a k v := by
  by_cases ha : a = ""
  · simp [set_album_var, ha]
  · by_cases hk : k = ""
    · by_cases hm : Dict.member s.album_variables a = true
      · simp [set_album_var, ha, hk, hm]
      · have hm2 : Dict.member (clear_album_vars s a).album_variables a = true := by
          simp [clear_album_vars, ha, Dict.member_insert_self]
        simp [set_album_var, ha, hk, hm, hm2]
    · simp [set_album_var, ha, hk, Dict.member_insert_self, Dict.get?_insert_self,
        Dict.insert_insert_self]

theorem unset_album_var_idem (s : PersistentVariables) (a k : String) :
    unset_album_var (unset_album_var s a k) a k = unset_album_var s a k := by
  by_cases ha : a = ""
  · simp [unset_album_var, ha]
  · by_cases hm : Dict.member s.album_variables a = true
    · simp [unset_album_var, ha, hm, Dict.member_insert_self, Dict.get?_insert_self,
        Dict.pop_pop_self, Dict.insert_insert_self]
    · simp [unset_album_var, ha, hm]

theorem unset_album_dict_idem (s : PersistentVariables) (a : String) :
    unset_album_dict (unset_album_dict s a) a = unset_album_dict s a := by
  by_cases ha : a = ""
  · simp [unset_album_dict, ha]
  · simp [unset_album_dict, ha, Dict.pop_pop_self]

theorem set_session_var_idem (s : PersistentVariables) (k v : String) :
    set_session_var (set_session_var s k v) k v = set_session_var s k v := by
  by_cases hk : k = ""
  · simp [set_session_var, hk]
  · simp [set_session_var, hk, Dict.insert_insert_self]

theorem unset_session_var_idem (s : PersistentVariables) (k : String) :
    unset_session_var (unset_session_var s k) k = unset_session_var s k := by
  simp [unset_session_var, Dict.pop_pop_self]

/-- C5: every store mutator (session and album set, unset, clear, destroy)
applied twice in succession with the same arguments yields the same state as a
single application; the read accessors are pure functions of the state and
trivially leave it unchanged. -/
theorem c5_idempotence (s : PersistentVariables) (a k v : String) :
    clear_album_vars (clear_album_vars s a) a = clear_album_vars s a ∧
    set_album_var (set_album_var s a k v) a k v = set_album_var s a k v ∧
    unset_album_var (unset_album_var s a k) a k = unset_album_var s a k ∧
    unset_album_dict (unset_album_dict s a) a = unset_album_dict s a ∧
    clear_session_vars (clear_session_vars s) = clear_session_vars s ∧
    set_session_var (set_session_var s k v) k v = set_session_var s k v ∧
    unset_session_var (unset_session_var s k) k = unset_session_var s k :=
  ⟨clear_album_vars_idem s a, set_album_var_idem s a k v, unset_album_var_idem s a k,
   unset_album_dict_idem s a, rfl, set_session_var_idem s k v, unset_session_var_idem s k⟩

/-- C6: after destroying album A's mapping and then clearing A, the store maps
A to an empty mapping and every album get on A returns the empty string — A
behaves as a fresh empty album. -/
theorem c6_destroy_then_clear (s : PersistentVariables) (A k : String) (hA : A ≠ "") :
    Dict.get? (clear_album_vars (unset_album_dict s A) A).album_variables A = some [] ∧
    get_album_var (clear_album_vars (unset_album_dict s A) A) A k = "" := by
  have h1 : Dict.get? (clear_album_vars (unset_album_dict s A) A).album_variables A
      = some [] := by
    simp [clear_album_vars, unset_album_dict, hA, Dict.get?_insert_self]
  exact ⟨h1, by simp [get_album_var, h1, Dict.get?]⟩

/-- C6 witness: destroy then clear on "album-1" over the empty store. -/
theorem c6_witness :
    Dict.get? (clear_album_vars (unset_album_dict emptyPV "album-1")
      "album-1").album_variables "album-1" = some [] ∧
    get_album_var (clear_album_vars (unset_album_dict emptyPV "album-1") "album-1")
      "album-1" "k" = "" :=
  c6_destroy_then_clear emptyPV "album-1" "k" (by decide)

/-- C7 counterexample: the names n1 = n2 = "" have equal normalized forms and
the context resolves the album identifier "mbid-1", yet setting via n1 with
value "x" stores nothing (the normalized key is empty), so getting via n2
returns "" rather than the value that the set was given. -/
theorem c7_counterexample :
    normalize_tagname "" = normalize_tagname "" ∧
    _get_album_id parserNoFile = "mbid-1" ∧
    func_get_a (func_set_a emptyPV parserNoFile "" "x").1 parserNoFile "" = "" ∧
    func_get_a (func_set_a emptyPV parserNoFile "" "x").1 parserNoFile "" ≠ "x" := by
  refine ⟨rfl, rfl, rfl, ?_⟩
  decide

/-- C7 (amended): every bridge function keys the store by the normalized name,
so for any two names with equal and non-empty normalized forms, a set via the
first followed by a get via the second returns the value that was set — in
session scope always, and in album scope whenever the context resolves a
non-empty album identifier. -/
theorem c7_normalization_roundtrip (s : PersistentVariables) (p : Parser)
    (n1 n2 value : String) (h : normalize_tagname n1 = normalize_tagname n2) :
    (normalize_tagname n1 ≠ "" →
      func_get_s (func_set_s s n1 value).1 n2 = value) ∧
    (normalize_tagname n1 ≠ "" → _get_album_id p ≠ "" →
      func_get_a (func_set_a s p n1 value).1 p n2 = value) := by
  constructor
  · intro hn
    by_cases hv : value = ""
    · subst hv
      simp [func_set_s, func_unset_s, func_get_s, get_session_var, unset_session_var,
        ← h, Dict.get?_pop_self]
    · simp [func_set_s, hv, func_get_s, get_session_var, set_session_var, hn, ← h,
        Dict.get?_insert_self]
  · intro hn hid
    simp [func_set_a, func_get_a, hid, set_album_var, hn, get_album_var, ← h,
      Dict.get?_insert_self]

/-- C7 witness: "Foo" and "foo" share the normalized form "foo"; a set via
"Foo" is read back via "foo" in both scopes. -/
theorem c7_witness :
    normalize_tagname "Foo" = normalize_tagname "foo" ∧
    func_get_s (func_set_s emptyPV "Foo" "x").1 "foo" = "x" ∧
    func_get_a (func_set_a emptyPV parserWithAlbum "Foo" "x").1 parserWithAlbum "foo"
      = "x" := by
  have h := c7_normalization_roundtrip emptyPV parserWithAlbum "Foo" "foo" "x" (by decide)
  exact ⟨by decide, h.1 (by decide), h.2 (by decide) (by decide)⟩

/-- C8: for an album with a non-empty identifier, the processing-start hook
replaces that album's mapping with an empty one, and the removal hook removes
the mapping entirely, after which every album get on that identifier returns
the empty string. -/
theorem c8_lifecycle_hooks (s : PersistentVariables) (album : AlbumObj) (k : String)
    (h : album.id ≠ "") :
    Dict.get? (initialize_album_dict s album).album_variables album.id = some [] ∧
    Dict.get? (destroy_album_dict s album).album_variables album.id = none ∧
    get_album_var (destroy_album_dict s album) album.id k = "" := by
  have h1 : Dict.get? (initialize_album_dict s album).album_variables album.id
      = some [] := by
    simp [initialize_album_dict, clear_album_vars, h, Dict.get?_insert_self]
  have h2 : Dict.get? (destroy_album_dict s album).album_variables album.id = none := by
    simp [destroy_album_dict, unset_album_dict, h, Dict.get?_pop_self]
  exact ⟨h1, h2, by simp [get_album_var, h2]⟩

/-- C8 witness: the hooks on album "album-1" over the empty store. -/
theorem c8_witness :
    Dict.get? (initialize_album_dict emptyPV ⟨"album-1"⟩).album_variables "album-1"
      = some [] ∧
    get_album_var (destroy_album_dict emptyPV ⟨"album-1"⟩) "album-1" "k" = "" := by
  have h := c8_lifecycle_hooks emptyPV ⟨"album-1"⟩ "k" (by decide)
  exact ⟨h.1, h.2.2⟩

/-- C9: in every state reachable from the empty store by store operations,
bridge calls and lifecycle hooks, the empty string is never a key of the album
mapping; album get with an empty identifier returns the empty string, and
every album mutator given an empty identifier is a no-op. -/
theorem c9_no_empty_album_key (s : PersistentVariables) (h : Reachable s) (k : String) :
    (∀ q ∈ s.album_variables, q.1 ≠ "") ∧
    get_album_var s "" k = "" ∧
    clear_album_vars s "" = s ∧
    (∀ key value, set_album_var s "" key value = s) ∧
    (∀ key, unset_album_var s "" key = s) ∧
    unset_album_dict s "" = s := by
  have hinv := reachable_noEmpty h
  refine ⟨hinv, ?_, ?_, ?_, ?_, ?_⟩
  · have hz : Dict.get? s.album_variables "" = none := Dict.get?_eq_none_of_keys hinv
    simp [get_album_var, hz]
  · simp [clear_album_vars]
  · intro key value
    simp [set_album_var]
  · intro key
    simp [unset_album_var]
  · simp [unset_album_dict]

/-- C9 witness: the initial empty state is reachable and satisfies the
invariant. -/
theorem c9_witness :
    (∀ q ∈ emptyPV.album_variables, q.1 ≠ "") ∧ get_album_var emptyPV "" "k" = "" := by
  have h := c9_no_empty_album_key emptyPV Reachable.init "k"
  exact ⟨h.1, h.2.1⟩

/-- C10: the dialog's rows are exactly the album header carrying the album
section's item count, the album entries keyed in sorted order (a sorted
permutation of that mapping's keys, each paired with its stored value), the
session header carrying the session count, and the session entries keyed in
sorted order; the row count is the two section sizes plus the two headers, and
the construction is a pure function of the store — it mutates nothing. -/
theorem c10_dialog_rows (s : PersistentVariables) (obj : MusicObject) :
    ∃ akeys skeys : List String,
      dialog_rows s obj =
        [Row.header "Album Variables" (get_album_dict s (dialog_album_id obj)).length]
          ++ akeys.map (fun k =>
              Row.entry k ((Dict.get? (get_album_dict s (dialog_album_id obj)) k).getD ""))
          ++ [Row.header "Session Variables" (get_session_dict s).length]
          ++ skeys.map (fun k =>
              Row.entry k ((Dict.get? (get_session_dict s) k).getD "")) ∧
      List.Perm akeys (Dict.keys (get_album_dict s (dialog_album_id obj))) ∧
      List.Sorted (fun a b => strLe a b = true) akeys ∧
      List.Perm skeys (Dict.keys (get_session_dict s)) ∧
      List.Sorted (fun a b => strLe a b = true) skeys ∧
      (dialog_rows s obj).length =
        (get_album_dict s (dialog_album_id obj)).length + (get_session_dict s).length + 2 := by
  refine ⟨sortKeys (Dict.keys (get_album_dict s (dialog_album_id obj))),
    sortKeys (Dict.keys (get_session_dict s)),
    rfl, sortKeys_perm _, sortKeys_sorted _, sortKeys_perm _, sortKeys_sorted _, ?_⟩
  simp [dialog_rows, (sortKeys_perm _).length_eq, Dict.keys]
  omega

end PersistentVariablesPlugin
